import Mathlib

/-!
Verification of the schema-augmentation / list-normalization helpers of this
repository.

Python strings are modelled as `List Char`.  Each generator of
`superset/helpers/database/dbhelper.py` is translated literally: the Python
`"...{}...".format(table_name)` template becomes concatenation of the literal
pieces (as `String.data` of Lean string literals, with every byte of the
original template preserved, including trailing spaces) around the
interpolated `table_name`.  Apostrophes inside the SQL text are written with
the escape `\x27`.
-/

set_option maxRecDepth 16384

/-- Source `dbhelper.add_id_on_table`: `ALTER TABLE ... ADD COLUMN IF NOT
EXISTS id ...` statement text. -/
def add_id_on_table (table_name : List Char) : List Char :=
  "\n        ALTER TABLE ".data ++ table_name ++
  " ADD COLUMN IF NOT EXISTS id INT NOT NULL PRIMARY KEY DEFAULT nextval(\x27eklaim_sequences\x27);\n    ".data

/-- Source `dbhelper.create_sequence_table`: shadow table DDL. -/
def create_sequence_table (table_name : List Char) : List Char :=
  "\n        CREATE TABLE IF NOT EXISTS sequence_id_".data ++ table_name ++
  " (\n            id INT AUTO_INCREMENT PRIMARY KEY\n        )\n    ".data

/-- Source `dbhelper.create_before_insert_trigger_table`. -/
def create_before_insert_trigger_table (table_name : List Char) : List Char :=
  "\n        DROP TRIGGER IF EXISTS get_id_".data ++ table_name ++
  ";\n        CREATE TRIGGER get_id_".data ++ table_name ++
  " BEFORE INSERT ON ".data ++ table_name ++
  " FOR EACH ROW\n            BEGIN\n                INSERT INTO sequence_id_".data ++ table_name ++
  " VALUES (NULL);\n                SET NEW.id = LAST_INSERT_ID();\n            END \n    ".data

/-- Source `dbhelper.create_after_insert_trigger_table`. -/
def create_after_insert_trigger_table (table_name : List Char) : List Char :=
  "\n        DROP TRIGGER IF EXISTS remove_id_".data ++ table_name ++
  ";\n        CREATE TRIGGER remove_id_".data ++ table_name ++
  " AFTER INSERT ON ".data ++ table_name ++
  " FOR EACH ROW\n            BEGIN\n                DELETE FROM sequence_id_".data ++ table_name ++
  " WHERE id = (SELECT * FROM sequence_id_".data ++ table_name ++
  " ORDER BY id ASC LIMIT 1);\n            END\n    ".data

/-- Source `dbhelper.create_diaglist_table`. -/
def create_diaglist_table (table_name : List Char) : List Char :=
  "\n        CREATE TABLE IF NOT EXISTS diaglist_".data ++ table_name ++
  " (\n            id INT AUTO_INCREMENT PRIMARY KEY,\n            id_eklaim INT,\n            kode_diagnosis VARCHAR(255)\n        )\n    ".data

/-- Source `dbhelper.create_proclist_table`. -/
def create_proclist_table (table_name : List Char) : List Char :=
  "\n        CREATE TABLE IF NOT EXISTS proclist_".data ++ table_name ++
  " (\n            id INT AUTO_INCREMENT PRIMARY KEY,\n            id_eklaim INT,\n            kode_probabilitas VARCHAR(255)\n        )\n    ".data

/-- Source `dbhelper.create_function_get_delimiter_count`: statement text of
the delimiter-count helper function. -/
def create_function_get_delimiter_count (table_name : List Char) : List Char :=
  "\n        DROP FUNCTION IF EXISTS func_".data ++ table_name ++
  "_get_delimiter_count;\n        CREATE FUNCTION func_".data ++ table_name ++
  "_get_delimiter_count (f_string VARCHAR(255), f_delimiter VARCHAR(5))\n        RETURNS INT(11)\n        BEGIN\n            RETURN 1 + (LENGTH(f_string) - LENGTH(REPLACE(f_string, f_delimiter, \x27\x27)));\n        END\n    ".data

/-- Source `dbhelper.create_function_split_by_delimiter`: statement text of
the token-extraction helper function. -/
def create_function_split_by_delimiter (table_name : List Char) : List Char :=
  "\n        DROP FUNCTION IF EXISTS func_".data ++ table_name ++
  "_split_by_delimiter;\n        CREATE FUNCTION func_".data ++ table_name ++
  "_split_by_delimiter (f_string VARCHAR(255), f_delimiter VARCHAR(5), f_order INT(11)) RETURNS VARCHAR(255) CHARSET utf8\n        BEGIN\n            DECLARE result VARCHAR(255) DEFAULT \x27\x27;\n            SET result = REVERSE(SUBSTRING_INDEX(REVERSE(SUBSTRING_INDEX(f_string, f_delimiter, f_order)), f_delimiter, 1));\n            RETURN result;\n        END\n    ".data

/-- Source `dbhelper.create_procedure_insert_diaglist`. -/
def create_procedure_insert_diaglist (table_name : List Char) : List Char :=
  "\n        DROP PROCEDURE IF EXISTS insert_split_result_diaglist_".data ++ table_name ++
  ";\n        CREATE PROCEDURE insert_split_result_diaglist_".data ++ table_name ++
  " (IN f_string VARCHAR(255), IN f_delimiter VARCHAR(5), IN f_old_id INT(11))\n        BEGIN\n            DECLARE counter INT DEFAULT 0;\n            DECLARE i INT DEFAULT 0;\n            SET counter = func_".data ++ table_name ++
  "_get_delimiter_count(f_string, f_delimiter);\n            WHILE i < counter\n                DO\n                    SET i = i + 1;\n                    INSERT INTO diaglist_".data ++ table_name ++
  " (id_eklaim, kode_diagnosis) VALUES (f_old_id, func_".data ++ table_name ++
  "_split_by_delimiter(f_string, f_delimiter, i));\n            END WHILE;\n        END    \n    ".data

/-- Source `dbhelper.create_procedure_insert_proclist`. -/
def create_procedure_insert_proclist (table_name : List Char) : List Char :=
  "\n        DROP PROCEDURE IF EXISTS insert_split_result_proclist_".data ++ table_name ++
  ";\n        CREATE PROCEDURE insert_split_result_proclist_".data ++ table_name ++
  " (IN f_string VARCHAR(255), IN f_delimiter VARCHAR(5), IN f_old_id INT(11))\n        BEGIN\n            DECLARE counter INT DEFAULT 0;\n            DECLARE i INT DEFAULT 0;\n            SET counter = func_".data ++ table_name ++
  "_get_delimiter_count(f_string, f_delimiter);\n            WHILE i < counter\n                DO\n                    SET i = i + 1;\n                    INSERT INTO proclist_".data ++ table_name ++
  " (id_eklaim, kode_probabilitas) VALUES (f_old_id, func_".data ++ table_name ++
  "_split_by_delimiter(f_string, f_delimiter, i));\n            END WHILE;\n        END    \n    ".data

/-- Source `dbhelper.create_trigger_after_insert_diaglist`. -/
def create_trigger_after_insert_diaglist (table_name : List Char) : List Char :=
  "\n        DROP TRIGGER IF EXISTS after_insert_diaglist_".data ++ table_name ++
  ";\n        CREATE TRIGGER after_insert_diaglist_".data ++ table_name ++
  " AFTER INSERT ON ".data ++ table_name ++
  " FOR EACH ROW\n            BEGIN\n                CALL insert_split_result_diaglist_".data ++ table_name ++
  "(NEW.DIAGLIST, \x27;\x27, NEW.id);\n            END\n    ".data

/-- Source `dbhelper.create_trigger_after_insert_proclist`. -/
def create_trigger_after_insert_proclist (table_name : List Char) : List Char :=
  "\n        DROP TRIGGER IF EXISTS after_insert_proclist_".data ++ table_name ++
  ";\n        CREATE TRIGGER after_insert_proclist_".data ++ table_name ++
  " AFTER INSERT ON ".data ++ table_name ++
  " FOR EACH ROW\n            BEGIN\n                CALL insert_split_result_proclist_".data ++ table_name ++
  "(NEW.PROCLIST, \x27;\x27, NEW.id);\n            END\n    ".data

/-! ## Semantics of the MySQL string builtins used by the generated functions

`LENGTH` is `List.length`, `REVERSE` is `List.reverse`.  `REPLACE` and
`SUBSTRING_INDEX` scan left to right over non-overlapping occurrences; they
are written with an explicit fuel argument (bounded by the length of the
scanned string, which only shrinks) so that they are structurally recursive
and evaluate by `decide`/`rfl`. -/

/-- Scanner for MySQL `REPLACE(s, find, repl)`; `fuel ≥ s.length` always
holds at every call site. -/
def replace_go (find repl : List Char) : Nat → List Char → List Char
  | _, [] => []
  | 0, s => s
  | fuel + 1, a :: s =>
    if find ≠ [] ∧ find.isPrefixOf (a :: s) then
      repl ++ replace_go find repl fuel ((a :: s).drop find.length)
    else a :: replace_go find repl fuel s

/-- MySQL `REPLACE(s, find, repl)`: replaces every non-overlapping occurrence
of `find` in `s` by `repl` (identity when `find` is empty). -/
def sql_replace (s find repl : List Char) : List Char :=
  replace_go find repl s.length s

/-- Number of non-overlapping occurrences of `pat` in `s` (left-to-right
scan), the mathematical reading of "occurrences of the delimiter". -/
def count_occ_go (pat : List Char) : Nat → List Char → Nat
  | _, [] => 0
  | 0, _ => 0
  | fuel + 1, a :: s =>
    if pat ≠ [] ∧ pat.isPrefixOf (a :: s) then
      1 + count_occ_go pat fuel ((a :: s).drop pat.length)
    else count_occ_go pat fuel s

/-- Number of non-overlapping occurrences of `pat` in `s`. -/
def count_occ (pat s : List Char) : Nat :=
  count_occ_go pat s.length s

/-- Scanner for MySQL `SUBSTRING_INDEX(s, delim, n)` with positive `n`: the
prefix of `s` before the `n`-th occurrence of `delim` (all of `s` when it has
fewer than `n` occurrences). -/
def sip_go (delim : List Char) : Nat → List Char → Nat → List Char
  | _, _, 0 => []
  | _, [], _ + 1 => []
  | 0, s, _ + 1 => s
  | fuel + 1, a :: s, n + 1 =>
    if delim ≠ [] ∧ delim.isPrefixOf (a :: s) then
      if n = 0 then []
      else delim ++ sip_go delim fuel ((a :: s).drop delim.length) n
    else a :: sip_go delim fuel s (n + 1)

/-- MySQL `SUBSTRING_INDEX(s, delim, count)`.  An empty delimiter yields `''`
(as in MySQL); `count = 0` yields `''`.  The generated statements only ever
pass counts ≥ 1, so MySQL's negative-count (count-from-the-right) mode is
never exercised; it is modelled as `''` here. -/
def substring_index (s delim : List Char) (count : Int) : List Char :=
  if delim = [] then []
  else if count ≤ 0 then []
  else sip_go delim s.length s count.toNat

/-- The SQL function `func_<t>_get_delimiter_count` emitted by
`create_function_get_delimiter_count`:
`1 + (LENGTH(f_string) - LENGTH(REPLACE(f_string, f_delimiter, '')))`. -/
def func_get_delimiter_count (f_string f_delimiter : List Char) : Int :=
  1 + ((f_string.length : Int) - ((sql_replace f_string f_delimiter []).length : Int))

/-- The SQL function `func_<t>_split_by_delimiter` emitted by
`create_function_split_by_delimiter`:
`REVERSE(SUBSTRING_INDEX(REVERSE(SUBSTRING_INDEX(f_string, f_delimiter, f_order)), f_delimiter, 1))`. -/
def func_split_by_delimiter (f_string f_delimiter : List Char) (f_order : Int) : List Char :=
  (substring_index (substring_index f_string f_delimiter f_order).reverse f_delimiter 1).reverse

/-- The stored procedure `insert_split_result_diaglist_<t>` emitted by
`create_procedure_insert_diaglist`, as the list of `(id_eklaim,
kode_diagnosis)` rows it inserts into `diaglist_<t>`, in insertion order.
The procedure sets `counter = func_<t>_get_delimiter_count(f_string,
f_delimiter)` and runs `WHILE i < counter DO SET i = i + 1; INSERT ...
VALUES (f_old_id, func_<t>_split_by_delimiter(f_string, f_delimiter, i))`,
i.e. one row per `i = 1 .. counter`.  When `f_string` is SQL `NULL`
(modelled as `none`) the counter is `NULL` and `i < NULL` is never true, so
no row is inserted. -/
def insert_split_result_diaglist (f_string : Option (List Char))
    (f_delimiter : List Char) (f_old_id : Int) : List (Int × List Char) :=
  match f_string with
  | none => []
  | some s =>
    (List.range (func_get_delimiter_count s f_delimiter).toNat).map
      (fun (j : Nat) => (f_old_id, func_split_by_delimiter s f_delimiter ((j : Int) + 1)))

/-- The trigger `after_insert_diaglist_<t>` emitted by
`create_trigger_after_insert_diaglist`: on each inserted parent row it runs
`CALL insert_split_result_diaglist_<t>(NEW.DIAGLIST, ';', NEW.id)`; the
result is the list of child rows appended for that parent row. -/
def after_insert_diaglist_row (new_DIAGLIST : Option (List Char)) (new_id : Int) :
    List (Int × List Char) :=
  insert_split_result_diaglist new_DIAGLIST [';'] new_id

/-! ## Tokens of a delimited string

`chunksBy p s` cuts `s` at every character satisfying `p`, keeping empty
pieces (so `#chunks = #cut-characters + 1`); `tokensBy c s` is the list of
`c`-separated tokens of `s`, the mathematical notion the spec's
"delimiter-separated token" refers to.  `joinD sep` concatenates pieces with
`sep` between consecutive pieces (Python's `sep.join`). -/

def chunksBy (p : Char → Bool) : List Char → List (List Char)
  | [] => [[]]
  | a :: s =>
    if p a then [] :: chunksBy p s
    else
      match chunksBy p s with
      | [] => [[a]]
      | t :: ts => (a :: t) :: ts

def tokensBy (c : Char) (s : List Char) : List (List Char) :=
  chunksBy (fun a => a == c) s

def joinD (sep : List Char) : List (List Char) → List Char
  | [] => []
  | [t] => t
  | t :: ts => t ++ sep ++ joinD sep ts

theorem chunksBy_ne_nil (p : Char → Bool) (s : List Char) : chunksBy p s ≠ [] := by
  induction s with
  | nil => simp [chunksBy]
  | cons a s ih =>
    simp only [chunksBy]
    split
    · simp
    · cases h : chunksBy p s with
      | nil => simp
      | cons t ts => simp

theorem length_chunksBy (p : Char → Bool) (s : List Char) :
    (chunksBy p s).length = s.countP p + 1 := by
  induction s with
  | nil => simp [chunksBy]
  | cons a s ih =>
    simp only [chunksBy, List.countP_cons]
    split
    · rename_i h
      simp [h, ih, Nat.add_comm]
    · rename_i h
      cases hc : chunksBy p s with
      | nil => exact absurd hc (chunksBy_ne_nil p s)
      | cons t ts =>
        simp only [List.length_cons]
        rw [hc] at ih
        simp only [List.length_cons] at ih
        simp [h, ih]

theorem mem_chunksBy_not (p : Char → Bool) (s : List Char) :
    ∀ t ∈ chunksBy p s, ∀ a ∈ t, p a = false := by
  induction s with
  | nil => simp [chunksBy]
  | cons a s ih =>
    simp only [chunksBy]
    split
    · intro t ht
      rcases List.mem_cons.mp ht with rfl | ht
      · simp
      · exact ih t ht
    · rename_i h
      cases hc : chunksBy p s with
      | nil => exact absurd hc (chunksBy_ne_nil p s)
      | cons u us =>
        intro t ht
        rcases List.mem_cons.mp ht with rfl | ht
        · intro b hb
          rcases List.mem_cons.mp hb with rfl | hb
          · exact Bool.not_eq_true _ ▸ (by simpa using h)
          · exact ih u (hc ▸ List.mem_cons_self u us) b hb
        · exact ih t (hc ▸ List.mem_cons_of_mem u ht)

theorem chunksBy_all_not (p : Char → Bool) (s : List Char)
    (h : ∀ a ∈ s, p a = false) : chunksBy p s = [s] := by
  induction s with
  | nil => simp [chunksBy]
  | cons a s ih =>
    have ha : p a = false := h a (List.mem_cons_self a s)
    have hs : ∀ b ∈ s, p b = false := fun b hb => h b (List.mem_cons_of_mem a hb)
    simp only [chunksBy, ha, Bool.false_eq_true, if_false, ih hs]

theorem chunksBy_append_cut (p : Char → Bool) (w rest : List Char) (c : Char)
    (hw : ∀ a ∈ w, p a = false) (hc : p c = true) :
    chunksBy p (w ++ c :: rest) = w :: chunksBy p rest := by
  induction w with
  | nil => simp [chunksBy, hc]
  | cons a w ih =>
    have ha : p a = false := hw a (List.mem_cons_self a w)
    have hw' : ∀ b ∈ w, p b = false := fun b hb => hw b (List.mem_cons_of_mem a hb)
    simp only [List.cons_append, chunksBy, ha, Bool.false_eq_true, if_false,
      List.append_eq, ih hw']

theorem joinD_tokensBy (c : Char) (s : List Char) : joinD [c] (tokensBy c s) = s := by
  induction s with
  | nil => simp [tokensBy, chunksBy, joinD]
  | cons a s ih =>
    simp only [tokensBy] at ih ⊢
    by_cases h : a = c
    · subst h
      cases hc : chunksBy (fun b => b == a) s with
      | nil => exact absurd hc (chunksBy_ne_nil _ s)
      | cons t ts =>
        rw [hc] at ih
        simp [chunksBy, hc, joinD, ih]
    · have hbeq : (a == c) = false := by simp [h]
      cases hc : chunksBy (fun b => b == c) s with
      | nil => exact absurd hc (chunksBy_ne_nil _ s)
      | cons t ts =>
        rw [hc] at ih
        simp only [chunksBy, hbeq, Bool.false_eq_true, if_false, hc]
        cases ts with
        | nil =>
          simp only [joinD] at ih ⊢
          simp [ih]
        | cons u us =>
          simp only [joinD] at ih ⊢
          rw [← ih]
          simp

theorem chunksBy_joinD (p : Char → Bool) (c : Char) (ws : List (List Char))
    (hws : ws ≠ []) (hfree : ∀ w ∈ ws, ∀ a ∈ w, p a = false) (hc : p c = true) :
    chunksBy p (joinD [c] ws) = ws := by
  induction ws with
  | nil => exact absurd rfl hws
  | cons w ws ih =>
    cases ws with
    | nil =>
      simp only [joinD]
      exact chunksBy_all_not p w (hfree w (List.mem_cons_self w []))
    | cons w' ws' =>
      have hfree' : ∀ u ∈ w' :: ws', ∀ a ∈ u, p a = false :=
        fun u hu => hfree u (List.mem_cons_of_mem w hu)
      have : joinD [c] (w :: w' :: ws') = w ++ c :: joinD [c] (w' :: ws') := by
        simp [joinD]
      rw [this,
        chunksBy_append_cut p w _ c (hfree w (List.mem_cons_self w _)) hc,
        ih (by simp) hfree']

/-! ## Single-character delimiter theory

The generated triggers always pass the one-character delimiter `';'`.  For a
one-character delimiter the MySQL expressions above compute exactly the
token decomposition `tokensBy`. -/

theorem replace_go_single (c : Char) :
    ∀ (fuel : Nat) (s : List Char), s.length ≤ fuel →
      replace_go [c] [] fuel s = s.filter (fun a => !(a == c)) := by
  intro fuel
  induction fuel with
  | zero =>
    intro s hs
    cases s with
    | nil => simp [replace_go]
    | cons a s => simp at hs
  | succ f ih =>
    intro s hs
    cases s with
    | nil => simp [replace_go]
    | cons a s =>
      simp only [List.length_cons, Nat.add_le_add_iff_right] at hs
      by_cases h : c = a
      · subst h
        have hcond : ([c] : List Char) ≠ [] ∧ ([c] : List Char).isPrefixOf (c :: s) := by
          exact ⟨by simp, by simp [List.isPrefixOf]⟩
        simp only [replace_go, if_pos hcond, List.length_cons, List.length_nil]
        simp [ih s hs]
      · have hpre : (([c] : List Char).isPrefixOf (a :: s)) = false := by
          simp [List.isPrefixOf, beq_iff_eq, h]
        have hcond : ¬(([c] : List Char) ≠ [] ∧ ([c] : List Char).isPrefixOf (a :: s)) := by
          rintro ⟨-, hb⟩
          rw [hpre] at hb
          exact Bool.false_ne_true hb
        have hbeq : (a == c) = false := by
          simp [beq_iff_eq]
          exact fun hac => h hac.symm
        simp only [replace_go, if_neg hcond]
        simp [ih s hs, List.filter_cons, hbeq]

theorem sql_replace_single (c : Char) (s : List Char) :
    sql_replace s [c] [] = s.filter (fun a => !(a == c)) :=
  replace_go_single c s.length s le_rfl

theorem count_occ_go_single (c : Char) :
    ∀ (fuel : Nat) (s : List Char), s.length ≤ fuel →
      count_occ_go [c] fuel s = s.countP (fun a => a == c) := by
  intro fuel
  induction fuel with
  | zero =>
    intro s hs
    cases s with
    | nil => simp [count_occ_go]
    | cons a s => simp at hs
  | succ f ih =>
    intro s hs
    cases s with
    | nil => simp [count_occ_go]
    | cons a s =>
      simp only [List.length_cons, Nat.add_le_add_iff_right] at hs
      by_cases h : c = a
      · subst h
        have hcond : ([c] : List Char) ≠ [] ∧ ([c] : List Char).isPrefixOf (c :: s) := by
          exact ⟨by simp, by simp [List.isPrefixOf]⟩
        simp only [count_occ_go, if_pos hcond, List.length_cons, List.length_nil]
        simp [ih s hs, List.countP_cons, Nat.add_comm]
      · have hpre : (([c] : List Char).isPrefixOf (a :: s)) = false := by
          simp [List.isPrefixOf, beq_iff_eq, h]
        have hcond : ¬(([c] : List Char) ≠ [] ∧ ([c] : List Char).isPrefixOf (a :: s)) := by
          rintro ⟨-, hb⟩
          rw [hpre] at hb
          exact Bool.false_ne_true hb
        have hbeq : (a == c) = false := by
          simp [beq_iff_eq]
          exact fun hac => h hac.symm
        simp only [count_occ_go, if_neg hcond]
        simp [ih s hs, List.countP_cons, hbeq]

theorem count_occ_single (c : Char) (s : List Char) :
    count_occ [c] s = s.countP (fun a => a == c) :=
  count_occ_go_single c s.length s le_rfl

theorem length_filter_not_add_countP (p : Char → Bool) (s : List Char) :
    (s.filter (fun a => !p a)).length + s.countP p = s.length := by
  induction s with
  | nil => simp
  | cons a s ih =>
    by_cases h : p a = true
    · simp only [List.filter_cons, List.countP_cons, h]
      simp
      omega
    · have h' : p a = false := by revert h; cases p a <;> simp
      simp only [List.filter_cons, List.countP_cons, h']
      simp
      omega

/-- For a one-character delimiter the emitted count formula
`1 + (LENGTH(s) - LENGTH(REPLACE(s, d, '')))` is `1 + occurrences`. -/
theorem func_count_single (c : Char) (s : List Char) :
    func_get_delimiter_count s [c] = 1 + (s.countP (fun a => a == c) : Int) := by
  unfold func_get_delimiter_count
  rw [sql_replace_single]
  have h := length_filter_not_add_countP (fun a => a == c) s
  have h2 := List.countP_le_length (fun a => a == c) (l := s)
  omega

theorem func_count_single_toNat (c : Char) (s : List Char) :
    (func_get_delimiter_count s [c]).toNat = (tokensBy c s).length := by
  rw [func_count_single, tokensBy, length_chunksBy]
  omega

theorem sip_go_single (c : Char) :
    ∀ (fuel : Nat) (s : List Char) (n : Nat), s.length ≤ fuel → 1 ≤ n →
      sip_go [c] fuel s n = joinD [c] ((tokensBy c s).take n) := by
  intro fuel
  induction fuel with
  | zero =>
    intro s n hs hn
    cases s with
    | nil =>
      obtain ⟨m, rfl⟩ : ∃ m, n = m + 1 := ⟨n - 1, by omega⟩
      simp [sip_go, tokensBy, chunksBy, joinD]
    | cons a s => simp at hs
  | succ f ih =>
    intro s n hs hn
    cases s with
    | nil =>
      obtain ⟨m, rfl⟩ : ∃ m, n = m + 1 := ⟨n - 1, by omega⟩
      simp [sip_go, tokensBy, chunksBy, joinD]
    | cons a s =>
      obtain ⟨m, rfl⟩ : ∃ m, n = m + 1 := ⟨n - 1, by omega⟩
      simp only [List.length_cons, Nat.add_le_add_iff_right] at hs
      by_cases h : c = a
      · subst h
        have hcond : ([c] : List Char) ≠ [] ∧ ([c] : List Char).isPrefixOf (c :: s) := by
          exact ⟨by simp, by simp [List.isPrefixOf]⟩
        cases m with
        | zero =>
          simp only [sip_go, if_pos hcond, if_pos rfl]
          simp [tokensBy, chunksBy, joinD]
        | succ k =>
          simp only [sip_go, if_pos hcond, if_neg (Nat.succ_ne_zero k)]
          simp only [List.length_cons, List.length_nil, Nat.zero_add, List.drop_succ_cons,
            List.drop_zero]
          rw [ih s (k + 1) hs (by omega)]
          cases hc : tokensBy c s with
          | nil => exact absurd hc (chunksBy_ne_nil _ s)
          | cons t ts =>
            have htok : tokensBy c (c :: s) = [] :: t :: ts := by
              simp [tokensBy, chunksBy]
              exact hc
            rw [htok]
            simp [joinD, List.take_succ_cons]
      · have hpre : (([c] : List Char).isPrefixOf (a :: s)) = false := by
          simp [List.isPrefixOf, beq_iff_eq, h]
        have hcond : ¬(([c] : List Char) ≠ [] ∧ ([c] : List Char).isPrefixOf (a :: s)) := by
          rintro ⟨-, hb⟩
          rw [hpre] at hb
          exact Bool.false_ne_true hb
        have hbeq : (a == c) = false := by
          simp [beq_iff_eq]
          exact fun hac => h hac.symm
        simp only [sip_go, if_neg hcond]
        rw [ih s (m + 1) hs (by omega)]
        cases hc : tokensBy c s with
        | nil => exact absurd hc (chunksBy_ne_nil _ s)
        | cons t ts =>
          have htok : tokensBy c (a :: s) = (a :: t) :: ts := by
            simp only [tokensBy, chunksBy, hbeq, Bool.false_eq_true, if_false]
            rw [show chunksBy (fun b => b == c) s = t :: ts from hc]
          rw [htok]
          simp only [List.take_succ_cons]
          cases htk : ts.take m with
          | nil => simp [joinD]
          | cons u us => simp [joinD]

theorem substring_index_single_take (c : Char) (s : List Char) (n : Int) (hn : 1 ≤ n) :
    substring_index s [c] n = joinD [c] ((tokensBy c s).take n.toNat) := by
  unfold substring_index
  rw [if_neg (by simp), if_neg (by omega)]
  exact sip_go_single c s.length s n.toNat le_rfl (by omega)

theorem headD_chunksBy_append (p : Char → Bool) (b : Char) (hb : p b = true) :
    ∀ (A B : List Char), (chunksBy p (A ++ b :: B)).headD [] = (chunksBy p A).headD [] := by
  intro A
  induction A with
  | nil => intro B; simp [chunksBy, hb]
  | cons a A ih =>
    intro B
    by_cases ha : p a = true
    · simp [chunksBy, ha]
    · have ha' : p a = false := by revert ha; cases p a <;> simp
      cases h1 : chunksBy p (A ++ b :: B) with
      | nil => exact absurd h1 (chunksBy_ne_nil _ _)
      | cons t ts =>
        cases h2 : chunksBy p A with
        | nil => exact absurd h2 (chunksBy_ne_nil _ _)
        | cons u us =>
          have hhd := ih B
          rw [h1, h2] at hhd
          simp only [List.headD_cons] at hhd
          simp only [List.cons_append, chunksBy, ha', Bool.false_eq_true, if_false,
            List.append_eq, h1, h2]
          simp [hhd]

/-- The first token of the reverse of a `[c]`-join is the reverse of the last
joined piece (all pieces being `c`-free). -/
theorem headD_tokensBy_reverse_joinD (c : Char) :
    ∀ (ts : List (List Char)), ts ≠ [] → (∀ t ∈ ts, ∀ x ∈ t, (x == c) = false) →
      (tokensBy c (joinD [c] ts).reverse).headD [] = (ts.getLastD []).reverse := by
  intro ts
  induction ts with
  | nil => intro h; exact absurd rfl h
  | cons t ts ih =>
    intro _ hfree
    cases ts with
    | nil =>
      simp only [joinD]
      rw [tokensBy,
        chunksBy_all_not _ _ (fun x hx => hfree t (by simp) x (List.mem_reverse.mp hx))]
      simp
    | cons u us =>
      have hjoin : joinD [c] (t :: u :: us) = t ++ c :: joinD [c] (u :: us) := by
        simp [joinD]
      have hrev : (t ++ c :: joinD [c] (u :: us)).reverse
          = (joinD [c] (u :: us)).reverse ++ c :: t.reverse := by
        simp
      rw [hjoin, hrev, tokensBy, headD_chunksBy_append _ c (by simp) _ _, ← tokensBy,
        ih (by simp) (fun v hv => hfree v (List.mem_cons_of_mem t hv))]
      simp [List.getLastD_cons]

/-- Main characterization of the emitted token-extraction function for a
one-character delimiter: `func_split_by_delimiter s [c] n` is the last of
the first `n` tokens of `s` — the `n`-th token when `n` is in range, the
last token when `n` exceeds the token count. -/
theorem tokensBy_ne_nil (c : Char) (s : List Char) : tokensBy c s ≠ [] :=
  chunksBy_ne_nil _ s

theorem func_split_single (c : Char) (s : List Char) (n : Int) (hn : 1 ≤ n) :
    func_split_by_delimiter s [c] n = ((tokensBy c s).take n.toNat).getLastD [] := by
  unfold func_split_by_delimiter
  rw [substring_index_single_take c s n hn]
  have hone : (1 : Int) ≤ 1 := le_rfl
  rw [substring_index_single_take c _ 1 hone]
  have hts : (tokensBy c s).take n.toNat ≠ [] := by
    cases hc : tokensBy c s with
    | nil => exact absurd hc (chunksBy_ne_nil _ s)
    | cons t ts =>
      obtain ⟨m, hm⟩ : ∃ m, n.toNat = m + 1 := ⟨n.toNat - 1, by omega⟩
      rw [hm]
      simp [List.take_succ_cons]
  have hfree : ∀ t ∈ (tokensBy c s).take n.toNat, ∀ x ∈ t, (x == c) = false :=
    fun t ht x hx => mem_chunksBy_not _ s t (List.take_subset _ _ ht) x hx
  have hhead := headD_tokensBy_reverse_joinD c ((tokensBy c s).take n.toNat) hts hfree
  have htake1 : ∀ (l : List (List Char)), l ≠ [] →
      joinD [c] (l.take (1 : Int).toNat) = l.headD [] := by
    intro l hl
    cases l with
    | nil => exact absurd rfl hl
    | cons t ts => simp [joinD]
  rw [htake1 (tokensBy c (joinD [c] ((tokensBy c s).take n.toNat)).reverse)
      (tokensBy_ne_nil _ _),
    hhead, List.reverse_reverse]

theorem getLastD_irrel {α : Type} (l : List α) (hl : l ≠ []) (x y : α) :
    l.getLastD x = l.getLastD y := by
  cases l with
  | nil => exact absurd rfl hl
  | cons a l => rw [List.getLastD_cons, List.getLastD_cons]

theorem getLastD_take {α : Type} :
    ∀ (ts : List α) (n : Nat) (d : α), 1 ≤ n → n ≤ ts.length →
      (ts.take n).getLastD d = ts.getD (n - 1) d := by
  intro ts
  induction ts with
  | nil =>
    intro n d h1 h2
    simp at h2
    omega
  | cons t ts ih =>
    intro n d h1 h2
    obtain ⟨m, rfl⟩ : ∃ m, n = m + 1 := ⟨n - 1, by omega⟩
    cases m with
    | zero => simp [List.take_succ_cons, List.getLastD_cons]
    | succ k =>
      simp only [List.take_succ_cons, List.getLastD_cons]
      have hlen : k + 1 ≤ ts.length := by
        simp only [List.length_cons] at h2
        omega
      have hne : ts.take (k + 1) ≠ [] := by
        cases ts with
        | nil => simp at hlen
        | cons u us => simp [List.take_succ_cons]
      calc (ts.take (k + 1)).getLastD t
          = (ts.take (k + 1)).getLastD d := getLastD_irrel _ hne t d
        _ = ts.getD (k + 1 - 1) d := ih (k + 1) d (by omega) hlen
        _ = (t :: ts).getD (k + 1 + 1 - 1) d := by simp [List.getD_cons_succ]

theorem range_map_getD {α : Type} :
    ∀ (ts : List α) (d : α), (List.range ts.length).map (fun j => ts.getD j d) = ts := by
  intro ts
  induction ts with
  | nil => simp
  | cons t ts ih =>
    intro d
    rw [List.length_cons, List.range_succ_eq_map, List.map_cons, List.map_map]
    have h2 : List.map ((fun j => (t :: ts).getD j d) ∘ Nat.succ) (List.range ts.length)
        = List.map (fun j => ts.getD j d) (List.range ts.length) :=
      List.map_congr_left (fun j _ => by simp [Function.comp, List.getD_cons_succ])
    rw [h2, ih d]
    simp

/-! ## Claims C1, C2, C3, C4, C9 -/

/-- C1 counterexample: for the two-character delimiter `"XX"` (allowed by the
claim, which covers delimiters up to 5 characters) present once in `"aXXb"`,
the emitted formula `1 + (LENGTH(s) - LENGTH(REPLACE(s, d, '')))` returns
`3`, not `1 + 1 = 2`: each removed occurrence shortens the string by the
delimiter's length, not by one. -/
theorem c1_counterexample :
    count_occ "XX".data "aXXb".data = 1 ∧
      func_get_delimiter_count "aXXb".data "XX".data
        ≠ 1 + (count_occ "XX".data "aXXb".data : Int) := by
  decide

/-- C1 (amended): for every single-character delimiter `c` present in `s`,
the delimiter-count helper emitted by `create_function_get_delimiter_count`
returns exactly `1 +` the number of occurrences of `c` in `s`. -/
theorem c1_delimiter_count_single_char (s : List Char) (c : Char) (_hmem : c ∈ s) :
    func_get_delimiter_count s [c] = 1 + (count_occ [c] s : Int) := by
  rw [func_count_single, count_occ_single]

theorem c1_delimiter_count_single_char_witness :
    ';' ∈ "a;b".data ∧
      func_get_delimiter_count "a;b".data [';'] = 1 + (count_occ [';'] "a;b".data : Int) :=
  ⟨by decide, c1_delimiter_count_single_char "a;b".data ';' (by decide)⟩

/-- C2: for every parent row inserted with a non-null, non-empty `DIAGLIST`
value `s`, the generated after-insert trigger (which calls the insert
procedure with delimiter `';'` and the new row's surrogate id) appends
exactly one child row per `';'`-separated token of `s`, in left-to-right
token order, each row carrying the new parent row's id. -/
theorem c2_trigger_inserts_tokens_in_order (s : List Char) (new_id : Int) (_hs : s ≠ []) :
    after_insert_diaglist_row (some s) new_id
      = (tokensBy ';' s).map (fun t => (new_id, t)) := by
  simp only [after_insert_diaglist_row, insert_split_result_diaglist]
  rw [func_count_single_toNat]
  have hcong : ∀ j ∈ List.range (tokensBy ';' s).length,
      (new_id, func_split_by_delimiter s [';'] ((j : Int) + 1))
        = (new_id, (tokensBy ';' s).getD j []) := by
    intro j hj
    rw [List.mem_range] at hj
    rw [func_split_single ';' s ((j : Int) + 1) (by omega)]
    have htn : ((j : Int) + 1).toNat = j + 1 := by omega
    rw [htn, getLastD_take (tokensBy ';' s) (j + 1) [] (by omega) (by omega)]
    simp
  rw [List.map_congr_left hcong]
  have hsplit : (List.range (tokensBy ';' s).length).map
        (fun j => (new_id, (tokensBy ';' s).getD j []))
      = ((List.range (tokensBy ';' s).length).map
          (fun j => (tokensBy ';' s).getD j [])).map (fun t => (new_id, t)) := by
    rw [List.map_map]
    simp [Function.comp]
  rw [hsplit, range_map_getD]

theorem c2_trigger_inserts_tokens_in_order_witness :
    "A12;B34;C56".data ≠ ([] : List Char) ∧
      after_insert_diaglist_row (some "A12;B34;C56".data) 7
        = [(7, "A12".data), (7, "B34".data), (7, "C56".data)] :=
  ⟨by decide,
    (c2_trigger_inserts_tokens_in_order "A12;B34;C56".data 7 (by decide)).trans (by decide)⟩

/-- C3 counterexample: with the two-character delimiter `"XX"` and
`s = "aXXb"`, the emitted count function returns 3 and the emitted token
extractor yields `"a"`, `"b"`, `"b"`, so the `d`-joined concatenation is
`"aXXbXXb" ≠ "aXXb"`: the round-trip law fails for multi-character
delimiters. -/
theorem c3_counterexample :
    joinD "XX".data
        ((List.range (func_get_delimiter_count "aXXb".data "XX".data).toNat).map
          (fun (j : Nat) => func_split_by_delimiter "aXXb".data "XX".data ((j : Int) + 1)))
      ≠ "aXXb".data := by
  decide

/-- C3 (amended): for every string `s` and every single-character delimiter
`c`, concatenating `tokenAt(s,c,1) .. tokenAt(s,c,count)` (the function
emitted by `create_function_split_by_delimiter`) with `c` between
consecutive tokens, where `count` is the value of the function emitted by
`create_function_get_delimiter_count`, reproduces `s` exactly. -/
theorem c3_round_trip_single_char (c : Char) (s : List Char) :
    joinD [c]
        ((List.range (func_get_delimiter_count s [c]).toNat).map
          (fun (j : Nat) => func_split_by_delimiter s [c] ((j : Int) + 1)))
      = s := by
  rw [func_count_single_toNat]
  have hcong : ∀ j ∈ List.range (tokensBy c s).length,
      func_split_by_delimiter s [c] ((j : Int) + 1) = (tokensBy c s).getD j [] := by
    intro j hj
    rw [List.mem_range] at hj
    rw [func_split_single c s ((j : Int) + 1) (by omega)]
    have htn : ((j : Int) + 1).toNat = j + 1 := by omega
    rw [htn, getLastD_take (tokensBy c s) (j + 1) [] (by omega) (by omega)]
    simp
  rw [List.map_congr_left hcong, range_map_getD, joinD_tokensBy]

/-- C4 counterexample: for the empty-string list value the generated
procedure inserts one child row (with an empty token), not zero: the
counter is `1 + (0 - 0) = 1`, so the loop body runs once. -/
theorem c4_counterexample :
    insert_split_result_diaglist (some []) [';'] 0 ≠ [] := by
  decide

/-- C4 (amended): a SQL `NULL` list value yields zero child rows (the
`WHILE i < counter` test is never true against a `NULL` counter), but the
empty string yields exactly one child row carrying the empty token. -/
theorem c4_null_and_empty_behavior (d : List Char) (old_id : Int) :
    insert_split_result_diaglist none d old_id = [] ∧
      insert_split_result_diaglist (some []) [';'] old_id = [(old_id, [])] := by
  refine ⟨rfl, ?_⟩
  simp only [insert_split_result_diaglist]
  have hcount : func_get_delimiter_count [] [';'] = 1 := by decide
  rw [hcount]
  simp [func_split_by_delimiter, substring_index, sip_go, List.range_succ]

/-- C9 counterexample: the claim also asserts the result is "not an empty
string"; for `s = "a;"` (2 tokens, the last one empty) and `n = 3` the
emitted extractor returns the empty string. -/
theorem c9_counterexample :
    ((tokensBy ';' "a;".data).length : Int) < 3 ∧
      func_split_by_delimiter "a;".data [';'] 3 = [] := by
  decide

/-- C9 (amended): for every string `s`, single-character delimiter `c` and
integer `n` strictly greater than the number of delimiter-bounded tokens of
`s`, the extractor emitted by `create_function_split_by_delimiter` returns
the last token of `s` (which is empty when `s` ends with the delimiter) —
`SUBSTRING_INDEX` saturates to the whole string — and no error occurs. -/
theorem c9_overflow_returns_last_token (s : List Char) (c : Char) (n : Int)
    (hover : ((tokensBy c s).length : Int) < n) :
    func_split_by_delimiter s [c] n = (tokensBy c s).getLastD [] := by
  have hlen : 1 ≤ (tokensBy c s).length := List.length_pos.mpr (tokensBy_ne_nil c s)
  rw [func_split_single c s n (by omega),
    List.take_of_length_le (by omega : (tokensBy c s).length ≤ n.toNat)]

theorem c9_overflow_returns_last_token_witness :
    ((tokensBy ';' "a;b".data).length : Int) < 5 ∧
      func_split_by_delimiter "a;b".data [';'] 5 = (tokensBy ';' "a;b".data).getLastD [] :=
  ⟨by decide, c9_overflow_returns_last_token "a;b".data ';' 5 (by decide)⟩

/-! ## Statement-text properties (claims C5, C6, C7) -/

/-- `needle` occurs verbatim (unescaped, unmodified) as a contiguous
substring of `hay`. -/
def appears_verbatim (needle hay : List Char) : Prop :=
  ∃ p q, hay = p ++ needle ++ q

/-- A statement is safe to re-run in the sense of the spec: it either uses a
`... IF NOT EXISTS ...` guarded `CREATE`/`ALTER`, or it starts with a
`DROP <kind> IF EXISTS ...` that precedes its `CREATE`. -/
def rerun_safe (stmt : List Char) : Prop :=
  (∃ p q, stmt = p ++ "IF NOT EXISTS".data ++ q) ∨
  (∃ kind rest, stmt = "\n        DROP ".data ++ kind ++ (" IF EXISTS ".data ++ rest))

/-! ### Engine model for guarded DDL

Modelled from the spec: the statement library's statements are executed by a
SQL engine that is not part of this repository.  §4.1 and the glossary fix
the semantics this model captures: a guarded `CREATE ... IF NOT EXISTS` (or
`ALTER TABLE ... ADD COLUMN IF NOT EXISTS`) creates the object only when no
object of that name exists and never fails, and a `DROP ... IF EXISTS`
followed by `CREATE` unconditionally replaces the object and never fails.
A schema is a map from object name to the installed definition text. -/

inductive DdlStmt where
  | createIfNotExists (key : List Char) (body : List Char)
  | dropThenCreate (key : List Char) (body : List Char)

def DdlStmt.key : DdlStmt → List Char
  | .createIfNotExists k _ => k
  | .dropThenCreate k _ => k

def Schema : Type := List Char → Option (List Char)

/-- Effect of one guarded statement on the named object's slot. -/
def cellStep (a : DdlStmt) (c : Option (List Char)) : Option (List Char) :=
  match a with
  | .createIfNotExists _ b => match c with | some x => some x | none => some b
  | .dropThenCreate _ b => some b

def applyStmt (a : DdlStmt) (s : Schema) : Schema :=
  fun k => if k = a.key then cellStep a (s k) else s k

def applyPlan (p : List DdlStmt) (s : Schema) : Schema :=
  p.foldl (fun s a => applyStmt a s) s

/-- Single-cell run of the statements that target one fixed object. -/
def cellRun (p : List DdlStmt) (c : Option (List Char)) : Option (List Char) :=
  p.foldl (fun c a => cellStep a c) c

theorem cellStep_isSome (a : DdlStmt) (c : Option (List Char)) : (cellStep a c).isSome := by
  cases a with
  | createIfNotExists k b => cases c <;> simp [cellStep]
  | dropThenCreate k b => simp [cellStep]

theorem cellRun_isSome (p : List DdlStmt) :
    ∀ c : Option (List Char), c.isSome → (cellRun p c).isSome := by
  induction p with
  | nil => intro c hc; exact hc
  | cons a p ih => intro c _; exact ih (cellStep a c) (cellStep_isSome a c)

theorem cellRun_fixed (p : List DdlStmt) :
    ∀ c d : Option (List Char), d = cellRun p c → cellRun p d = d := by
  induction p with
  | nil => intro c d hd; exact hd ▸ rfl
  | cons a p ih =>
    intro c d hd
    have hd' : d = cellRun p (cellStep a c) := hd
    cases a with
    | dropThenCreate k b =>
      show cellRun p (cellStep (.dropThenCreate k b) d) = d
      rw [show cellStep (.dropThenCreate k b) d = some b from rfl]
      rw [show cellStep (.dropThenCreate k b) c = some b from rfl] at hd'
      exact hd'.symm
    | createIfNotExists k b =>
      have hds : d.isSome := by
        rw [hd']
        exact cellRun_isSome p _ (cellStep_isSome _ c)
      obtain ⟨x, hx⟩ := Option.isSome_iff_exists.mp hds
      have hstep : cellStep (.createIfNotExists k b) d = d := by
        rw [hx]; rfl
      show cellRun p (cellStep (.createIfNotExists k b) d) = d
      rw [hstep]
      exact ih (cellStep (.createIfNotExists k b) c) d hd'

/-- The statements of a plan that target object `k`. -/
def stmtsOn (k : List Char) (p : List DdlStmt) : List DdlStmt :=
  p.filter (fun a => a.key == k)

theorem applyPlan_cell (p : List DdlStmt) :
    ∀ (s : Schema) (k : List Char), applyPlan p s k = cellRun (stmtsOn k p) (s k) := by
  induction p with
  | nil => intro s k; rfl
  | cons a p ih =>
    intro s k
    show applyPlan p (applyStmt a s) k = cellRun (stmtsOn k (a :: p)) (s k)
    rw [ih (applyStmt a s) k]
    by_cases hk : a.key = k
    · have h1 : applyStmt a s k = cellStep a (s k) := by
        simp [applyStmt, hk.symm]
      have h2 : stmtsOn k (a :: p) = a :: stmtsOn k p := by
        simp [stmtsOn, List.filter_cons, hk]
      rw [h1, h2]
      rfl
    · have h1 : applyStmt a s k = s k := by
        simp only [applyStmt]
        rw [if_neg (fun h => hk h.symm)]
      have h2 : stmtsOn k (a :: p) = stmtsOn k p := by
        simp only [stmtsOn, List.filter_cons]
        rw [if_neg (by simpa using hk)]
      rw [h1, h2]

/-- Applying a plan of guarded statements twice yields the same schema as
applying it once. -/
theorem applyPlan_idem (p : List DdlStmt) (s : Schema) :
    applyPlan p (applyPlan p s) = applyPlan p s := by
  funext k
  rw [applyPlan_cell p (applyPlan p s) k, applyPlan_cell p s k]
  exact cellRun_fixed (stmtsOn k p) (s k) (cellRun (stmtsOn k p) (s k)) rfl

/-- C5 counterexample: the statement library performs no identifier
validation or quoting; the injection payload `"x; DROP TABLE users; --"`
passed as a table name appears verbatim — unsafe characters included — in
the statement returned by `add_id_on_table`. -/
theorem c5_counterexample :
    appears_verbatim "x; DROP TABLE users; --".data
      (add_id_on_table "x; DROP TABLE users; --".data) :=
  ⟨"\n        ALTER TABLE ".data,
   " ADD COLUMN IF NOT EXISTS id INT NOT NULL PRIMARY KEY DEFAULT nextval(\x27eklaim_sequences\x27);\n    ".data,
   rfl⟩

/-- C5 (amended): none of the statement-library generators interpolates the
caller-supplied name through any identifier-quoting or validation step; the
name is spliced verbatim by plain string formatting into every returned
statement, so any unsafe characters it contains appear in the statement text
unchanged (no `IdentifierValidationError` exists anywhere in the library). -/
theorem c5_names_interpolated_verbatim (name : List Char) :
    appears_verbatim name (add_id_on_table name) ∧
    appears_verbatim name (create_sequence_table name) ∧
    appears_verbatim name (create_before_insert_trigger_table name) ∧
    appears_verbatim name (create_after_insert_trigger_table name) ∧
    appears_verbatim name (create_diaglist_table name) ∧
    appears_verbatim name (create_proclist_table name) ∧
    appears_verbatim name (create_function_get_delimiter_count name) ∧
    appears_verbatim name (create_function_split_by_delimiter name) ∧
    appears_verbatim name (create_procedure_insert_diaglist name) ∧
    appears_verbatim name (create_procedure_insert_proclist name) ∧
    appears_verbatim name (create_trigger_after_insert_diaglist name) ∧
    appears_verbatim name (create_trigger_after_insert_proclist name) :=
  ⟨⟨_, _, rfl⟩, ⟨_, _, rfl⟩, ⟨_, _, rfl⟩, ⟨_, _, rfl⟩, ⟨_, _, rfl⟩, ⟨_, _, rfl⟩,
   ⟨_, _, rfl⟩, ⟨_, _, rfl⟩, ⟨_, _, rfl⟩, ⟨_, _, rfl⟩, ⟨_, _, rfl⟩, ⟨_, _, rfl⟩⟩

theorem rerun_safe_add_id_on_table (t : List Char) : rerun_safe (add_id_on_table t) := by
  left
  refine ⟨"\n        ALTER TABLE ".data ++ t ++ " ADD COLUMN ".data,
    " id INT NOT NULL PRIMARY KEY DEFAULT nextval(\x27eklaim_sequences\x27);\n    ".data, ?_⟩
  have hfuse : (" ADD COLUMN IF NOT EXISTS id INT NOT NULL PRIMARY KEY DEFAULT nextval(\x27eklaim_sequences\x27);\n    " : String).data
      = (" ADD COLUMN " : String).data ++ ("IF NOT EXISTS" : String).data ++
        (" id INT NOT NULL PRIMARY KEY DEFAULT nextval(\x27eklaim_sequences\x27);\n    " : String).data := rfl
  simp [add_id_on_table, hfuse]

theorem rerun_safe_create_sequence_table (t : List Char) :
    rerun_safe (create_sequence_table t) := by
  left
  refine ⟨"\n        CREATE TABLE ".data,
    " sequence_id_".data ++ t ++ " (\n            id INT AUTO_INCREMENT PRIMARY KEY\n        )\n    ".data, ?_⟩
  have hfuse : ("\n        CREATE TABLE IF NOT EXISTS sequence_id_" : String).data
      = ("\n        CREATE TABLE " : String).data ++ ("IF NOT EXISTS" : String).data ++
        (" sequence_id_" : String).data := rfl
  simp [create_sequence_table, hfuse]

theorem rerun_safe_create_diaglist_table (t : List Char) :
    rerun_safe (create_diaglist_table t) := by
  left
  refine ⟨"\n        CREATE TABLE ".data,
    " diaglist_".data ++ t ++ " (\n            id INT AUTO_INCREMENT PRIMARY KEY,\n            id_eklaim INT,\n            kode_diagnosis VARCHAR(255)\n        )\n    ".data, ?_⟩
  have hfuse : ("\n        CREATE TABLE IF NOT EXISTS diaglist_" : String).data
      = ("\n        CREATE TABLE " : String).data ++ ("IF NOT EXISTS" : String).data ++
        (" diaglist_" : String).data := rfl
  simp [create_diaglist_table, hfuse]

theorem rerun_safe_create_proclist_table (t : List Char) :
    rerun_safe (create_proclist_table t) := by
  left
  refine ⟨"\n        CREATE TABLE ".data,
    " proclist_".data ++ t ++ " (\n            id INT AUTO_INCREMENT PRIMARY KEY,\n            id_eklaim INT,\n            kode_probabilitas VARCHAR(255)\n        )\n    ".data, ?_⟩
  have hfuse : ("\n        CREATE TABLE IF NOT EXISTS proclist_" : String).data
      = ("\n        CREATE TABLE " : String).data ++ ("IF NOT EXISTS" : String).data ++
        (" proclist_" : String).data := rfl
  simp [create_proclist_table, hfuse]

theorem rerun_safe_before_insert_trigger (t : List Char) :
    rerun_safe (create_before_insert_trigger_table t) := by
  right
  refine ⟨"TRIGGER".data,
    "get_id_".data ++ t ++ ";\n        CREATE TRIGGER get_id_".data ++ t ++
      " BEFORE INSERT ON ".data ++ t ++
      " FOR EACH ROW\n            BEGIN\n                INSERT INTO sequence_id_".data ++ t ++
      " VALUES (NULL);\n                SET NEW.id = LAST_INSERT_ID();\n            END \n    ".data, ?_⟩
  have hfuse : ("\n        DROP TRIGGER IF EXISTS get_id_" : String).data
      = ("\n        DROP " : String).data ++ ("TRIGGER" : String).data ++
        (" IF EXISTS " : String).data ++ ("get_id_" : String).data := rfl
  simp [create_before_insert_trigger_table, hfuse]

theorem rerun_safe_after_insert_trigger (t : List Char) :
    rerun_safe (create_after_insert_trigger_table t) := by
  right
  refine ⟨"TRIGGER".data,
    "remove_id_".data ++ t ++ ";\n        CREATE TRIGGER remove_id_".data ++ t ++
      " AFTER INSERT ON ".data ++ t ++
      " FOR EACH ROW\n            BEGIN\n                DELETE FROM sequence_id_".data ++ t ++
      " WHERE id = (SELECT * FROM sequence_id_".data ++ t ++
      " ORDER BY id ASC LIMIT 1);\n            END\n    ".data, ?_⟩
  have hfuse : ("\n        DROP TRIGGER IF EXISTS remove_id_" : String).data
      = ("\n        DROP " : String).data ++ ("TRIGGER" : String).data ++
        (" IF EXISTS " : String).data ++ ("remove_id_" : String).data := rfl
  simp [create_after_insert_trigger_table, hfuse]

theorem rerun_safe_function_get_delimiter_count (t : List Char) :
    rerun_safe (create_function_get_delimiter_count t) := by
  right
  refine ⟨"FUNCTION".data,
    "func_".data ++ t ++ "_get_delimiter_count;\n        CREATE FUNCTION func_".data ++ t ++
      "_get_delimiter_count (f_string VARCHAR(255), f_delimiter VARCHAR(5))\n        RETURNS INT(11)\n        BEGIN\n            RETURN 1 + (LENGTH(f_string) - LENGTH(REPLACE(f_string, f_delimiter, \x27\x27)));\n        END\n    ".data, ?_⟩
  have hfuse : ("\n        DROP FUNCTION IF EXISTS func_" : String).data
      = ("\n        DROP " : String).data ++ ("FUNCTION" : String).data ++
        (" IF EXISTS " : String).data ++ ("func_" : String).data := rfl
  simp [create_function_get_delimiter_count, hfuse]

theorem rerun_safe_function_split_by_delimiter (t : List Char) :
    rerun_safe (create_function_split_by_delimiter t) := by
  right
  refine ⟨"FUNCTION".data,
    "func_".data ++ t ++ "_split_by_delimiter;\n        CREATE FUNCTION func_".data ++ t ++
      "_split_by_delimiter (f_string VARCHAR(255), f_delimiter VARCHAR(5), f_order INT(11)) RETURNS VARCHAR(255) CHARSET utf8\n        BEGIN\n            DECLARE result VARCHAR(255) DEFAULT \x27\x27;\n            SET result = REVERSE(SUBSTRING_INDEX(REVERSE(SUBSTRING_INDEX(f_string, f_delimiter, f_order)), f_delimiter, 1));\n            RETURN result;\n        END\n    ".data, ?_⟩
  have hfuse : ("\n        DROP FUNCTION IF EXISTS func_" : String).data
      = ("\n        DROP " : String).data ++ ("FUNCTION" : String).data ++
        (" IF EXISTS " : String).data ++ ("func_" : String).data := rfl
  simp [create_function_split_by_delimiter, hfuse]

theorem rerun_safe_procedure_insert_diaglist (t : List Char) :
    rerun_safe (create_procedure_insert_diaglist t) := by
  right
  refine ⟨"PROCEDURE".data,
    "insert_split_result_diaglist_".data ++ t ++
      ";\n        CREATE PROCEDURE insert_split_result_diaglist_".data ++ t ++
      " (IN f_string VARCHAR(255), IN f_delimiter VARCHAR(5), IN f_old_id INT(11))\n        BEGIN\n            DECLARE counter INT DEFAULT 0;\n            DECLARE i INT DEFAULT 0;\n            SET counter = func_".data ++ t ++
      "_get_delimiter_count(f_string, f_delimiter);\n            WHILE i < counter\n                DO\n                    SET i = i + 1;\n                    INSERT INTO diaglist_".data ++ t ++
      " (id_eklaim, kode_diagnosis) VALUES (f_old_id, func_".data ++ t ++
      "_split_by_delimiter(f_string, f_delimiter, i));\n            END WHILE;\n        END    \n    ".data, ?_⟩
  have hfuse : ("\n        DROP PROCEDURE IF EXISTS insert_split_result_diaglist_" : String).data
      = ("\n        DROP " : String).data ++ ("PROCEDURE" : String).data ++
        (" IF EXISTS " : String).data ++ ("insert_split_result_diaglist_" : String).data := rfl
  simp [create_procedure_insert_diaglist, hfuse]

theorem rerun_safe_procedure_insert_proclist (t : List Char) :
    rerun_safe (create_procedure_insert_proclist t) := by
  right
  refine ⟨"PROCEDURE".data,
    "insert_split_result_proclist_".data ++ t ++
      ";\n        CREATE PROCEDURE insert_split_result_proclist_".data ++ t ++
      " (IN f_string VARCHAR(255), IN f_delimiter VARCHAR(5), IN f_old_id INT(11))\n        BEGIN\n            DECLARE counter INT DEFAULT 0;\n            DECLARE i INT DEFAULT 0;\n            SET counter = func_".data ++ t ++
      "_get_delimiter_count(f_string, f_delimiter);\n            WHILE i < counter\n                DO\n                    SET i = i + 1;\n                    INSERT INTO proclist_".data ++ t ++
      " (id_eklaim, kode_probabilitas) VALUES (f_old_id, func_".data ++ t ++
      "_split_by_delimiter(f_string, f_delimiter, i));\n            END WHILE;\n        END    \n    ".data, ?_⟩
  have hfuse : ("\n        DROP PROCEDURE IF EXISTS insert_split_result_proclist_" : String).data
      = ("\n        DROP " : String).data ++ ("PROCEDURE" : String).data ++
        (" IF EXISTS " : String).data ++ ("insert_split_result_proclist_" : String).data := rfl
  simp [create_procedure_insert_proclist, hfuse]

theorem rerun_safe_trigger_after_insert_diaglist (t : List Char) :
    rerun_safe (create_trigger_after_insert_diaglist t) := by
  right
  refine ⟨"TRIGGER".data,
    "after_insert_diaglist_".data ++ t ++
      ";\n        CREATE TRIGGER after_insert_diaglist_".data ++ t ++
      " AFTER INSERT ON ".data ++ t ++
      " FOR EACH ROW\n            BEGIN\n                CALL insert_split_result_diaglist_".data ++ t ++
      "(NEW.DIAGLIST, \x27;\x27, NEW.id);\n            END\n    ".data, ?_⟩
  have hfuse : ("\n        DROP TRIGGER IF EXISTS after_insert_diaglist_" : String).data
      = ("\n        DROP " : String).data ++ ("TRIGGER" : String).data ++
        (" IF EXISTS " : String).data ++ ("after_insert_diaglist_" : String).data := rfl
  simp [create_trigger_after_insert_diaglist, hfuse]

theorem rerun_safe_trigger_after_insert_proclist (t : List Char) :
    rerun_safe (create_trigger_after_insert_proclist t) := by
  right
  refine ⟨"TRIGGER".data,
    "after_insert_proclist_".data ++ t ++
      ";\n        CREATE TRIGGER after_insert_proclist_".data ++ t ++
      " AFTER INSERT ON ".data ++ t ++
      " FOR EACH ROW\n            BEGIN\n                CALL insert_split_result_proclist_".data ++ t ++
      "(NEW.PROCLIST, \x27;\x27, NEW.id);\n            END\n    ".data, ?_⟩
  have hfuse : ("\n        DROP TRIGGER IF EXISTS after_insert_proclist_" : String).data
      = ("\n        DROP " : String).data ++ ("TRIGGER" : String).data ++
        (" IF EXISTS " : String).data ++ ("after_insert_proclist_" : String).data := rfl
  simp [create_trigger_after_insert_proclist, hfuse]

/-- The full statement set for table `t` as guarded DDL actions.  Each entry
records the kind of guard the generated statement text uses (`IF NOT
EXISTS` vs `DROP ... IF EXISTS; CREATE ...`), the catalog name of the object
it installs (an object-kind marker plus the name appearing in the statement
text), and the generated statement itself as the installed definition. -/
def schema_plan (t : List Char) : List DdlStmt :=
  [ .createIfNotExists ("column:id:".data ++ t) (add_id_on_table t),
    .createIfNotExists ("table:sequence_id_".data ++ t) (create_sequence_table t),
    .dropThenCreate ("trigger:get_id_".data ++ t) (create_before_insert_trigger_table t),
    .dropThenCreate ("trigger:remove_id_".data ++ t) (create_after_insert_trigger_table t),
    .createIfNotExists ("table:diaglist_".data ++ t) (create_diaglist_table t),
    .createIfNotExists ("table:proclist_".data ++ t) (create_proclist_table t),
    .dropThenCreate ("function:func_".data ++ t ++ "_get_delimiter_count".data)
      (create_function_get_delimiter_count t),
    .dropThenCreate ("function:func_".data ++ t ++ "_split_by_delimiter".data)
      (create_function_split_by_delimiter t),
    .dropThenCreate ("procedure:insert_split_result_diaglist_".data ++ t)
      (create_procedure_insert_diaglist t),
    .dropThenCreate ("procedure:insert_split_result_proclist_".data ++ t)
      (create_procedure_insert_proclist t),
    .dropThenCreate ("trigger:after_insert_diaglist_".data ++ t)
      (create_trigger_after_insert_diaglist t),
    .dropThenCreate ("trigger:after_insert_proclist_".data ++ t)
      (create_trigger_after_insert_proclist t) ]

/-- C6: every statement returned by every statement-library generator is
safe to re-run — each `CREATE`/`ALTER` either carries an `IF NOT EXISTS`
guard or is preceded by a matching `DROP ... IF EXISTS` — and applying the
full statement set twice in a row yields the same final schema state as
applying it once, with no duplicate objects (and no failure, guarded
statements being total in the engine model). -/
theorem c6_idempotent_and_rerun_safe (t : List Char) (s : Schema) :
    rerun_safe (add_id_on_table t) ∧
    rerun_safe (create_sequence_table t) ∧
    rerun_safe (create_before_insert_trigger_table t) ∧
    rerun_safe (create_after_insert_trigger_table t) ∧
    rerun_safe (create_diaglist_table t) ∧
    rerun_safe (create_proclist_table t) ∧
    rerun_safe (create_function_get_delimiter_count t) ∧
    rerun_safe (create_function_split_by_delimiter t) ∧
    rerun_safe (create_procedure_insert_diaglist t) ∧
    rerun_safe (create_procedure_insert_proclist t) ∧
    rerun_safe (create_trigger_after_insert_diaglist t) ∧
    rerun_safe (create_trigger_after_insert_proclist t) ∧
    applyPlan (schema_plan t) (applyPlan (schema_plan t) s) = applyPlan (schema_plan t) s :=
  ⟨rerun_safe_add_id_on_table t, rerun_safe_create_sequence_table t,
   rerun_safe_before_insert_trigger t, rerun_safe_after_insert_trigger t,
   rerun_safe_create_diaglist_table t, rerun_safe_create_proclist_table t,
   rerun_safe_function_get_delimiter_count t, rerun_safe_function_split_by_delimiter t,
   rerun_safe_procedure_insert_diaglist t, rerun_safe_procedure_insert_proclist t,
   rerun_safe_trigger_after_insert_diaglist t, rerun_safe_trigger_after_insert_proclist t,
   applyPlan_idem (schema_plan t) s⟩

/-- C7: for every table name `t`, the emulated-sequence statement pair
creates the trigger `get_id_<t>` `BEFORE INSERT ON <t>` whose body inserts a
placeholder row into the shadow table `sequence_id_<t>` and copies the
auto-generated value into the new row's id (`SET NEW.id =
LAST_INSERT_ID();`), and the trigger `remove_id_<t>` `AFTER INSERT ON <t>`
whose body deletes the shadow-table row with the smallest id (selected via
`ORDER BY id ASC LIMIT 1`). -/
theorem c7_emulated_sequence_triggers (t : List Char) :
    appears_verbatim
      ("CREATE TRIGGER get_id_".data ++ t ++ " BEFORE INSERT ON ".data ++ t ++
        " FOR EACH ROW".data)
      (create_before_insert_trigger_table t) ∧
    appears_verbatim ("INSERT INTO sequence_id_".data ++ t ++ " VALUES (NULL);".data)
      (create_before_insert_trigger_table t) ∧
    appears_verbatim "SET NEW.id = LAST_INSERT_ID();".data
      (create_before_insert_trigger_table t) ∧
    appears_verbatim
      ("CREATE TRIGGER remove_id_".data ++ t ++ " AFTER INSERT ON ".data ++ t ++
        " FOR EACH ROW".data)
      (create_after_insert_trigger_table t) ∧
    appears_verbatim
      ("DELETE FROM sequence_id_".data ++ t ++ " WHERE id = (SELECT * FROM sequence_id_".data ++
        t ++ " ORDER BY id ASC LIMIT 1);".data)
      (create_after_insert_trigger_table t) := by
  refine ⟨?_, ?_, ?_, ?_, ?_⟩
  · refine ⟨"\n        DROP TRIGGER IF EXISTS get_id_".data ++ t ++ ";\n        ".data,
      "\n            BEGIN\n                INSERT INTO sequence_id_".data ++ t ++
        " VALUES (NULL);\n                SET NEW.id = LAST_INSERT_ID();\n            END \n    ".data, ?_⟩
    have h1 : (";\n        CREATE TRIGGER get_id_" : String).data
        = (";\n        " : String).data ++ ("CREATE TRIGGER get_id_" : String).data := rfl
    have h2 : (" FOR EACH ROW\n            BEGIN\n                INSERT INTO sequence_id_" : String).data
        = (" FOR EACH ROW" : String).data ++
          ("\n            BEGIN\n                INSERT INTO sequence_id_" : String).data := rfl
    simp [create_before_insert_trigger_table, h1, h2]
  · refine ⟨"\n        DROP TRIGGER IF EXISTS get_id_".data ++ t ++
        ";\n        CREATE TRIGGER get_id_".data ++ t ++ " BEFORE INSERT ON ".data ++ t ++
        " FOR EACH ROW\n            BEGIN\n                ".data,
      "\n                SET NEW.id = LAST_INSERT_ID();\n            END \n    ".data, ?_⟩
    have h2 : (" FOR EACH ROW\n            BEGIN\n                INSERT INTO sequence_id_" : String).data
        = (" FOR EACH ROW\n            BEGIN\n                " : String).data ++
          ("INSERT INTO sequence_id_" : String).data := rfl
    have h3 : (" VALUES (NULL);\n                SET NEW.id = LAST_INSERT_ID();\n            END \n    " : String).data
        = (" VALUES (NULL);" : String).data ++
          ("\n                SET NEW.id = LAST_INSERT_ID();\n            END \n    " : String).data := rfl
    simp [create_before_insert_trigger_table, h2, h3]
  · refine ⟨"\n        DROP TRIGGER IF EXISTS get_id_".data ++ t ++
        ";\n        CREATE TRIGGER get_id_".data ++ t ++ " BEFORE INSERT ON ".data ++ t ++
        " FOR EACH ROW\n            BEGIN\n                INSERT INTO sequence_id_".data ++ t ++
        " VALUES (NULL);\n                ".data,
      "\n            END \n    ".data, ?_⟩
    have h3 : (" VALUES (NULL);\n                SET NEW.id = LAST_INSERT_ID();\n            END \n    " : String).data
        = (" VALUES (NULL);\n                " : String).data ++
          ("SET NEW.id = LAST_INSERT_ID();" : String).data ++
          ("\n            END \n    " : String).data := rfl
    simp [create_before_insert_trigger_table, h3]
  · refine ⟨"\n        DROP TRIGGER IF EXISTS remove_id_".data ++ t ++ ";\n        ".data,
      "\n            BEGIN\n                DELETE FROM sequence_id_".data ++ t ++
        " WHERE id = (SELECT * FROM sequence_id_".data ++ t ++
        " ORDER BY id ASC LIMIT 1);\n            END\n    ".data, ?_⟩
    have h1 : (";\n        CREATE TRIGGER remove_id_" : String).data
        = (";\n        " : String).data ++ ("CREATE TRIGGER remove_id_" : String).data := rfl
    have h2 : (" FOR EACH ROW\n            BEGIN\n                DELETE FROM sequence_id_" : String).data
        = (" FOR EACH ROW" : String).data ++
          ("\n            BEGIN\n                DELETE FROM sequence_id_" : String).data := rfl
    simp [create_after_insert_trigger_table, h1, h2]
  · refine ⟨"\n        DROP TRIGGER IF EXISTS remove_id_".data ++ t ++
        ";\n        CREATE TRIGGER remove_id_".data ++ t ++ " AFTER INSERT ON ".data ++ t ++
        " FOR EACH ROW\n            BEGIN\n                ".data,
      "\n            END\n    ".data, ?_⟩
    have h2 : (" FOR EACH ROW\n            BEGIN\n                DELETE FROM sequence_id_" : String).data
        = (" FOR EACH ROW\n            BEGIN\n                " : String).data ++
          ("DELETE FROM sequence_id_" : String).data := rfl
    have h3 : (" ORDER BY id ASC LIMIT 1);\n            END\n    " : String).data
        = (" ORDER BY id ASC LIMIT 1);" : String).data ++
          ("\n            END\n    " : String).data := rfl
    simp [create_after_insert_trigger_table, h2, h3]

/-! ## Claim C8: the CSV-upload schema-augmentation step

`CsvToDatabaseView.form_post` (superset/views/database/views.py) executes,
inside its `try` block, `conn.execute(dbhelper.create_sequence())` followed
by `conn.execute(dbhelper.add_id_on_table(csv_table))`; the `except`
handler calls `db.session.rollback()` and returns
`redirect("/csvtodatabaseview/form")`.  Python evaluates the attribute
access `dbhelper.create_sequence` before anything is executed on the
connection, and raises `AttributeError` when the module has no such
attribute. -/

/-- Attribute names defined by the module
`superset/helpers/database/dbhelper.py`, in source order. -/
def dbhelper_attrs : List String :=
  ["add_id_on_table", "create_sequence_table", "create_before_insert_trigger_table",
   "create_after_insert_trigger_table", "create_diaglist_table", "create_proclist_table",
   "create_function_get_delimiter_count", "create_function_split_by_delimiter",
   "create_procedure_insert_diaglist", "create_procedure_insert_proclist",
   "create_trigger_after_insert_diaglist", "create_trigger_after_insert_proclist"]

/-- Python attribute lookup `dbhelper.<name>`: `AttributeError` when the
module defines no such attribute. -/
def lookup_dbhelper_attr (name : String) : Except String String :=
  if name ∈ dbhelper_attrs then Except.ok name
  else Except.error ("AttributeError: module dbhelper has no attribute " ++ name)

/-- Failure redirect returned by the `except` handler (views.py line 434). -/
def csv_upload_failure_redirect : String := "/csvtodatabaseview/form"

/-- Success redirect of `form_post` (views.py line 446). -/
def csv_upload_success_redirect : String := "/tablemodelview/list/"

/-- The schema-augmentation step of `form_post` (views.py lines 342-344):
the statements executed on the connection, or the exception text.  The
attribute `create_sequence` is looked up first; only if that succeeded
would `add_id_on_table(csv_table)` be executed (the `ok` branch is
unreachable because the module defines no `create_sequence`). -/
def form_post_schema_augment (csv_table : List Char) : Except String (List (List Char)) :=
  match lookup_dbhelper_attr "create_sequence" with
  | Except.error e => Except.error e
  | Except.ok _ => Except.ok [add_id_on_table csv_table]

/-- Outcome of `form_post` around the schema-augmentation step: whether the
metadata session was rolled back, which redirect is returned, and which
schema statements were executed on the connection. -/
structure UploadOutcome where
  rolled_back : Bool
  redirect_to : String
  deriving DecidableEq

/-- `form_post` control flow around the augmentation step: any exception
reaches the catch-all handler, which rolls back and returns the failure
redirect; on success the statements were executed and the success redirect
is returned. -/
def csv_form_post (csv_table : List Char) : UploadOutcome × List (List Char) :=
  match form_post_schema_augment csv_table with
  | Except.error _ => (⟨true, csv_upload_failure_redirect⟩, [])
  | Except.ok stmts => (⟨false, csv_upload_success_redirect⟩, stmts)

/-- C8: `dbhelper` defines no `create_sequence` (it defines
`create_sequence_table`), so for every uploaded table the schema-augmentation
step of `CsvToDatabaseView.form_post` raises `AttributeError` before any
schema statement is executed, the catch-all handler rolls back and returns
the failure redirect, and the surrogate-id statement `add_id_on_table` is
never executed through this code path. -/
theorem c8_create_sequence_missing (csv_table : List Char) :
    "create_sequence" ∉ dbhelper_attrs ∧
    "create_sequence_table" ∈ dbhelper_attrs ∧
    csv_form_post csv_table = (⟨true, csv_upload_failure_redirect⟩, []) := by
  refine ⟨by decide, by decide, ?_⟩
  have h : lookup_dbhelper_attr "create_sequence"
      = Except.error "AttributeError: module dbhelper has no attribute create_sequence" := rfl
  simp [csv_form_post, form_post_schema_augment, h]

/-! ## Claim C10: stopword removal
(superset/helpers/txt_pre_process/stopword.py) -/

/-- Python whitespace, as split on by `str.split()` (ASCII range; the
further Unicode whitespace code points play no role in this development). -/
def py_is_space (c : Char) : Bool :=
  c == ' ' || c == '\t' || c == '\n' || c == '\r' || c == '\x0b' || c == '\x0c'

/-- Python `text.split()`: the maximal runs of non-whitespace characters of
`text`, in order, with no empty words. -/
def py_split (s : List Char) : List (List Char) :=
  (chunksBy py_is_space s).filter (fun w => !w.isEmpty)

/-- Source `stopword.remove_stopword`: splits `text` on whitespace, drops
the words contained in the stopword list, and joins the remaining words
with single spaces.  The list produced by `get_stopwords()` comes from the
external Sastrawi library (the same fixed list on every call); it is taken
here as an explicit parameter, so the theorems below cover the library's
actual list whatever it is. -/
def remove_stopword (stopwords : List (List Char)) (text : List Char) : List Char :=
  joinD [' '] ((py_split text).filter (fun w => !stopwords.contains w))

theorem py_split_joinD (ws : List (List Char)) (hne : ∀ w ∈ ws, w ≠ [])
    (hfree : ∀ w ∈ ws, ∀ a ∈ w, py_is_space a = false) :
    py_split (joinD [' '] ws) = ws := by
  cases ws with
  | nil => simp [py_split, joinD, chunksBy]
  | cons w ws' =>
    rw [py_split, chunksBy_joinD py_is_space ' ' (w :: ws') (by simp) hfree (by decide)]
    rw [List.filter_eq_self.mpr]
    intro a ha
    cases hax : a with
    | nil => exact absurd hax (hne a ha)
    | cons x xs => simp

/-- C10: `remove_stopword` is idempotent — its output consists of the
input's whitespace-separated words with stopwords removed, joined by single
spaces, and a second pass removes nothing further and changes no
whitespace. -/
theorem c10_remove_stopword_idempotent (stopwords : List (List Char)) (text : List Char) :
    remove_stopword stopwords (remove_stopword stopwords text)
      = remove_stopword stopwords text := by
  unfold remove_stopword
  have hne : ∀ w ∈ (py_split text).filter (fun w => !stopwords.contains w), w ≠ [] := by
    intro w hw
    have hw' : w ∈ py_split text := (List.mem_filter.mp hw).1
    have hw2 := (List.mem_filter.mp hw').2
    intro h
    subst h
    simp at hw2
  have hfree : ∀ w ∈ (py_split text).filter (fun w => !stopwords.contains w),
      ∀ a ∈ w, py_is_space a = false := by
    intro w hw a ha
    have hw' : w ∈ py_split text := (List.mem_filter.mp hw).1
    have hw'' : w ∈ chunksBy py_is_space text := (List.mem_filter.mp hw').1
    exact mem_chunksBy_not py_is_space text w hw'' a ha
  rw [py_split_joinD _ hne hfree,
    List.filter_eq_self.mpr (fun w hw => (List.mem_filter.mp hw).2)]
